import Mathlib

/-!
Verification development for the invoice-data-extraction repository.

The embedding below translates, from the Python source:
  * `_basic_regex_extraction` (src/pipeline/ai_extraction_pipeline.py) —
    including the concrete regular expressions it searches, modelled by a
    small backtracking matcher with Python `re.search` semantics (leftmost
    match, greedy quantifiers) for the token shapes those patterns use;
  * `_compare_extractions` (same file) — the reconciliation engine;
  * `process_invoice_with_ai` / `_run_ai_extraction` (same file) — the
    orchestration relevant to degradation behaviour, parameterised over the
    external OCR text and the model-side outcome;
  * the anomaly-storing loop of `extract_invoice`
    (src/ui/flask_app/api_blueprint.py);
  * `GeminiExtractor._structure_extracted_data`
    (src/models/gemini/extractor.py), over a deep embedding of Python
    values (`PyVal`).

Python floats are modelled as rationals (`ℚ`); every arithmetic operation
performed by the modelled code (comparison, division by small counts) is
exact at the values the code manipulates.
-/

namespace InvoiceExtraction

/-! ## A tiny regex matcher

The patterns in `_basic_regex_extraction` are concatenations of literal
words and bounded repetitions of character classes, with one capture group.
`RTok.cls p lo hi?` is `p{lo,hi}` (greedy); `hi? = none` means unbounded.
Matching follows Python `re.search`: earliest start position wins, within a
position earlier tokens are as greedy as possible, later tokens backtrack
first. -/

inductive RTok where
  | lit : String → RTok
  | cls : (Char → Bool) → Nat → Option Nat → RTok

/-- Length of the maximal prefix of `s` whose characters satisfy `p`. -/
def clsRun (p : Char → Bool) : List Char → Nat
  | [] => 0
  | c :: cs => if p c then clsRun p cs + 1 else 0

/-- Candidate consumption counts for a greedy `p{lo,hi}` repetition, most
greedy first. -/
def countsDesc (run lo : Nat) (hi : Option Nat) : List Nat :=
  let cap := match hi with
    | some m => Nat.min run m
    | none => run
  if cap < lo then [] else (List.range' lo (cap - lo + 1)).reverse

/-- All remainders of `s` after matching the token sequence, in
backtracking preference order. -/
def matchSeq : List RTok → List Char → List (List Char)
  | [], s => [s]
  | RTok.lit l :: ts, s =>
      if l.data.isPrefixOf s then matchSeq ts (s.drop l.length) else []
  | RTok.cls p lo hi :: ts, s =>
      (countsDesc (clsRun p s) lo hi).flatMap fun k => matchSeq ts (s.drop k)

/-- Try to match `pre` then the capture group `grp` anchored at the start of
`s`; return the characters consumed by the group of the first successful
combination. -/
def searchAt (pre grp : List RTok) (s : List Char) : Option (List Char) :=
  (matchSeq pre s).findSome? fun rem1 =>
    (matchSeq grp rem1).head?.map fun rem2 => rem1.take (rem1.length - rem2.length)

/-- `re.search`: scan start positions left to right, return group 1 of the
first match. -/
def reSearch (pre grp : List RTok) : List Char → Option String
  | [] => (searchAt pre grp []).map fun g => String.mk g
  | c :: s' =>
      match searchAt pre grp (c :: s') with
      | some g => some (String.mk g)
      | none => reSearch pre grp s'

/-- First pattern in the list that matches wins (the `break` in the source's
per-field pattern loops). -/
def firstMatch (pats : List (List RTok × List RTok)) (text : String) : Option String :=
  pats.findSome? fun pg => reSearch pg.1 pg.2 text.data

/-- Python `sub in s` on strings. -/
def listContains (sub : List Char) : List Char → Bool
  | [] => sub.isEmpty
  | c :: cs => sub.isPrefixOf (c :: cs) || listContains sub cs

def containsSub (s sub : String) : Bool := listContains sub.data s.data

/-! ### Python string primitives

Structural (kernel-computable) counterparts of `str.lower`, `str.upper`,
`str.strip`, `str.split`, and single-character `str.replace`. -/

def lowerStr (s : String) : String := String.mk (s.data.map Char.toLower)

def upperStr (s : String) : String := String.mk (s.data.map Char.toUpper)

def stripStr (s : String) : String :=
  String.mk (((s.data.dropWhile Char.isWhitespace).reverse.dropWhile Char.isWhitespace).reverse)

/-- `s.split(sep)` for a one-character separator. -/
def splitOnChar (sep : Char) : List Char → List (List Char)
  | [] => [[]]
  | x :: xs =>
      let r := splitOnChar sep xs
      if x == sep then [] :: r
      else
        match r with
        | [] => [[x]]
        | h :: t => (x :: h) :: t

def splitLines (s : String) : List String := (splitOnChar '\n' s.data).map String.mk

/-- `s.replace(",", "")`. -/
def removeCommas (s : String) : String := String.mk (s.data.filter fun c => c != ',')

/-! ## Character classes used by the source's patterns -/

def isWs (c : Char) : Bool := c.isWhitespace
def isDigitC (c : Char) : Bool := c.isDigit
def colonOrWs (c : Char) : Bool := c == ':' || c.isWhitespace
def slashOrDash (c : Char) : Bool := c == '/' || c == '-'
def alnumOrDash (c : Char) : Bool := c.isAlphanum || c == '-'
def wordChar (c : Char) : Bool := c.isAlphanum || c == '_'
def currencySym (c : Char) : Bool := c == '$' || c == '₹' || c == '€' || c == '£' || c == '¥'
def digitOrComma (c : Char) : Bool := c.isDigit || c == ','
def isDot (c : Char) : Bool := c == '.'
def isComma (c : Char) : Bool := c == ','
def isHash (c : Char) : Bool := c == '#'

/-! ## `_basic_regex_extraction` -/

structure FieldValue where
  value : String
  confidence : ℚ
  deriving DecidableEq, Repr

/-- `invoice\s*#?\s*([A-Z0-9\-]+)` and friends (searched case-insensitively
on the lower-cased text, so the class admits any-letter characters). -/
def invPatterns : List (List RTok × List RTok) :=
  [([RTok.lit "invoice", RTok.cls isWs 0 none, RTok.cls isHash 0 (some 1), RTok.cls isWs 0 none],
    [RTok.cls alnumOrDash 1 none]),
   ([RTok.lit "inv", RTok.cls isWs 0 none, RTok.cls isHash 0 (some 1), RTok.cls isWs 0 none],
    [RTok.cls alnumOrDash 1 none]),
   ([RTok.lit "bill", RTok.cls isWs 0 none, RTok.cls isHash 0 (some 1), RTok.cls isWs 0 none],
    [RTok.cls alnumOrDash 1 none])]

/-- The three date patterns of the source, where `SL` stands for the
class accepting a slash or a dash: `date[:\s]*(\d{1,2} SL \d{1,2} SL \d{4})`,
`(\d{4} SL \d{1,2} SL \d{1,2})`, `date[:\s]*(\w{3}\s+\d{1,2},?\s+\d{4})`. -/
def datePatterns : List (List RTok × List RTok) :=
  [([RTok.lit "date", RTok.cls colonOrWs 0 none],
    [RTok.cls isDigitC 1 (some 2), RTok.cls slashOrDash 1 (some 1),
     RTok.cls isDigitC 1 (some 2), RTok.cls slashOrDash 1 (some 1),
     RTok.cls isDigitC 4 (some 4)]),
   ([],
    [RTok.cls isDigitC 4 (some 4), RTok.cls slashOrDash 1 (some 1),
     RTok.cls isDigitC 1 (some 2), RTok.cls slashOrDash 1 (some 1),
     RTok.cls isDigitC 1 (some 2)]),
   ([RTok.lit "date", RTok.cls colonOrWs 0 none],
    [RTok.cls wordChar 3 (some 3), RTok.cls isWs 1 none,
     RTok.cls isDigitC 1 (some 2), RTok.cls isComma 0 (some 1),
     RTok.cls isWs 1 none, RTok.cls isDigitC 4 (some 4)])]

/-- `total[:\s]*[\$₹€£¥]?\s*([\d,]+\.?\d*)` and the `amount` /
`grand\s+total` variants. -/
def totalPatterns : List (List RTok × List RTok) :=
  [([RTok.lit "total", RTok.cls colonOrWs 0 none, RTok.cls currencySym 0 (some 1),
     RTok.cls isWs 0 none],
    [RTok.cls digitOrComma 1 none, RTok.cls isDot 0 (some 1), RTok.cls isDigitC 0 none]),
   ([RTok.lit "amount", RTok.cls colonOrWs 0 none, RTok.cls currencySym 0 (some 1),
     RTok.cls isWs 0 none],
    [RTok.cls digitOrComma 1 none, RTok.cls isDot 0 (some 1), RTok.cls isDigitC 0 none]),
   ([RTok.lit "grand", RTok.cls isWs 1 none, RTok.lit "total", RTok.cls colonOrWs 0 none,
     RTok.cls currencySym 0 (some 1), RTok.cls isWs 0 none],
    [RTok.cls digitOrComma 1 none, RTok.cls isDot 0 (some 1), RTok.cls isDigitC 0 none])]

def vendorKeywords : List String := ["invoice", "date", "total", "amount", "bill"]
def vendorIndicators : List String := ["LTD", "INC", "CORP", "CO.", "LLC"]

def extractInvoiceNo (textLower : String) : FieldValue :=
  match firstMatch invPatterns textLower with
  | some g => ⟨upperStr g, 0.8⟩
  | none => ⟨"", 0⟩

def extractDate (textLower : String) : FieldValue :=
  match firstMatch datePatterns textLower with
  | some g => ⟨g, 0.7⟩
  | none => ⟨"", 0⟩

def extractTotal (textLower : String) : FieldValue :=
  match firstMatch totalPatterns textLower with
  | some g => ⟨removeCommas g, 0.75⟩
  | none => ⟨"", 0⟩

/-- The vendor line-scan heuristic: first five lines, skip keyword lines,
accept the first stripped line longer than 3 characters containing a
company-suffix indicator. -/
def vendorCandidate (ocrText : String) : Option String :=
  ((splitLines ocrText).take 5).findSome? fun line =>
    let l := stripStr line
    if l.length > 3
        && !(vendorKeywords.any fun k => containsSub (lowerStr l) k)
        && (vendorIndicators.any fun i => containsSub (upperStr l) i) then
      some l
    else none

def extractVendor (ocrText : String) : FieldValue :=
  match vendorCandidate ocrText with
  | some l => ⟨l, 0.6⟩
  | none => ⟨"", 0⟩

/-- `_basic_regex_extraction`: the four-field dict, in the source's key
order; the empty-text guard returns the all-default dict. -/
def basicRegexExtraction (ocrText : String) : List (String × FieldValue) :=
  if ocrText = "" then
    [("invoice_no", ⟨"", 0⟩), ("vendor", ⟨"", 0⟩), ("date", ⟨"", 0⟩), ("total", ⟨"", 0⟩)]
  else
    let tl := lowerStr ocrText
    [("invoice_no", extractInvoiceNo tl), ("vendor", extractVendor ocrText),
     ("date", extractDate tl), ("total", extractTotal tl)]

/-! ## `_compare_extractions` -/

/-- Dict lookups `ext.get(field, {}).get("value", "")` and
`...get("confidence", 0.0)`. -/
def getValue (ext : List (String × FieldValue)) (f : String) : String :=
  match ext.find? (fun p => p.1 == f) with
  | some p => p.2.value
  | none => ""

def getConf (ext : List (String × FieldValue)) (f : String) : ℚ :=
  match ext.find? (fun p => p.1 == f) with
  | some p => p.2.confidence
  | none => 0

/-- One entry of `comparison["field_comparisons"]`. -/
structure FieldComparison where
  regex_value : String
  ai_value : String
  regex_confidence : ℚ
  ai_confidence : ℚ
  both_present : Bool
  values_match : Bool
  recommended_value : String
  recommended_method : String
  deriving DecidableEq, Repr

/-- The per-field body of `_compare_extractions`: comparison metrics and
the recommendation branch cascade, in the source's exact priority order. -/
def compareField (rv : String) (rc : ℚ) (av : String) (ac : ℚ) : FieldComparison :=
  let bp : Bool := rv != "" && av != ""
  let vm : Bool := if bp then stripStr (lowerStr rv) == stripStr (lowerStr av) else false
  { regex_value := rv, ai_value := av, regex_confidence := rc, ai_confidence := ac,
    both_present := bp, values_match := vm,
    recommended_value :=
      if bp && vm then rv
      else if ac > rc then av
      else if rc > ac then rv
      else if av != "" then av
      else if rv != "" then rv
      else "",
    recommended_method :=
      if bp && vm then "either"
      else if ac > rc then "ai"
      else if rc > ac then "regex"
      else if av != "" then "ai"
      else if rv != "" then "regex"
      else "" }

/-- The predicate by which `fields_with_data` counts a field (truthiness of
its `recommended_value`). -/
def hasData (c : FieldComparison) : Bool := c.recommended_value != ""

structure OverallMetrics where
  total_fields : Nat
  fields_with_data : Nat
  matching_fields : Nat
  data_completeness : ℚ
  agreement_rate : ℚ
  deriving DecidableEq, Repr

structure Comparison where
  field_comparisons : List (String × FieldComparison)
  overall_metrics : OverallMetrics
  recommendations : List String
  deriving DecidableEq, Repr

/-- The model-side input of the comparison: `_run_ai_extraction`'s return
value, accessed by the comparison only through `.get("schema", {})`. -/
structure AiExtraction where
  error : Option String
  schema : List (String × FieldValue)
  deriving DecidableEq, Repr

def fieldsToCompare : List String := ["invoice_no", "vendor", "date", "total"]

/-- `_compare_extractions`. -/
def compareExtractions (regexExt : List (String × FieldValue)) (ai : AiExtraction) :
    Comparison :=
  let fcs := fieldsToCompare.map fun f =>
    (f, compareField (getValue regexExt f) (getConf regexExt f)
        (getValue ai.schema f) (getConf ai.schema f))
  let total := fieldsToCompare.length
  let fwd := fcs.countP fun p => hasData p.2
  let mf := fcs.countP fun p => p.2.values_match
  let dc : ℚ := if total > 0 then (fwd : ℚ) / (total : ℚ) else 0
  let ar : ℚ := if fwd > 0 then (mf : ℚ) / (fwd : ℚ) else 0
  { field_comparisons := fcs,
    overall_metrics :=
      { total_fields := total, fields_with_data := fwd, matching_fields := mf,
        data_completeness := dc, agreement_rate := ar },
    recommendations :=
      if ar > 0.8 then ["High agreement between methods - use AI for better accuracy"]
      else if dc < 0.5 then ["Low data completeness - consider improving OCR quality"]
      else ["Moderate agreement - use confidence-weighted combination"] }

/-! ## `process_invoice_with_ai` (degradation-relevant slice)

The OCR collaborator and model inference are external; the orchestration is
parameterised over the OCR text and the model-side outcome. `errors`
collects only exceptions escaping the pipeline body; `_run_phase1_ocr` and
`_run_ai_extraction` catch internally and return normally, so the embedded
stages contribute no entry. -/

structure ProcessResult where
  ocr_text : String
  regex_extraction : List (String × FieldValue)
  ai_extraction : AiExtraction
  comparison : Comparison
  errors : List String
  deriving DecidableEq, Repr

/-- Every failure return of `_run_ai_extraction` (modules unavailable,
inference error key, exception) carries an `error` entry and an empty
`schema`. -/
def aiFailureResult (msg : String) : AiExtraction := { error := some msg, schema := [] }

def processInvoiceWithAi (ocrText : String) (ai : AiExtraction) : ProcessResult :=
  let regexE := basicRegexExtraction ocrText
  { ocr_text := ocrText, regex_extraction := regexE, ai_extraction := ai,
    comparison := compareExtractions regexE ai, errors := [] }

/-! ## The anomaly-storing loop of `extract_invoice`
(src/ui/flask_app/api_blueprint.py)

The loop reads each field comparison as a Python dict via
`comp.get("conflict")`; the dict view below exposes exactly the keys the
`field_comparison` literal of `_compare_extractions` defines. -/

inductive CompVal where
  | str : String → CompVal
  | num : ℚ → CompVal
  | bool : Bool → CompVal
  deriving DecidableEq, Repr

/-- Python truthiness of a field-comparison dict value. -/
def CompVal.truthy : CompVal → Bool
  | .str s => s != ""
  | .num q => q != 0
  | .bool b => b

/-- `comp.get(key)`: the dict view of a `field_comparison` entry. -/
def FieldComparison.getKey (c : FieldComparison) (k : String) : Option CompVal :=
  if k == "regex_value" then some (.str c.regex_value)
  else if k == "ai_value" then some (.str c.ai_value)
  else if k == "regex_confidence" then some (.num c.regex_confidence)
  else if k == "ai_confidence" then some (.num c.ai_confidence)
  else if k == "both_present" then some (.bool c.both_present)
  else if k == "values_match" then some (.bool c.values_match)
  else if k == "recommended_value" then some (.str c.recommended_value)
  else if k == "recommended_method" then some (.str c.recommended_method)
  else none

structure Anomaly where
  field : String
  reason : String
  score : ℚ
  deriving DecidableEq, Repr

/-- The `for field, comp in field_comparisons.items(): if comp.get("conflict"):
mark_anomaly(...)` loop of `extract_invoice`. -/
def storeAnomalies (fcs : List (String × FieldComparison)) : List Anomaly :=
  fcs.filterMap fun p =>
    match p.2.getKey "conflict" with
    | some v =>
        if v.truthy then
          some { field := p.1,
                 reason := "Conflict between methods: " ++ p.2.recommended_value,
                 score := 0.8 }
        else none
    | none => none

/-! ## Python values, for `GeminiExtractor._structure_extracted_data`

A deep embedding of the JSON-shaped Python values the Gemini extractor
manipulates. `int` and `float` are kept apart because `isinstance` and
`str()` distinguish them; floats are modelled by the exact rational they
denote. Dicts preserve insertion order, as Python dicts do. -/

mutual
inductive PyVal where
  | none : PyVal
  | bool : Bool → PyVal
  | int : Int → PyVal
  | float : ℚ → PyVal
  | str : String → PyVal
  | list : PyList → PyVal
  | dict : PyDict → PyVal
inductive PyList where
  | nil : PyList
  | cons : PyVal → PyList → PyList
inductive PyDict where
  | nil : PyDict
  | cons : String → PyVal → PyDict → PyDict
end

deriving instance DecidableEq for PyVal
deriving instance DecidableEq for PyList
deriving instance DecidableEq for PyDict

def PyDict.get? : PyDict → String → Option PyVal
  | .nil, _ => Option.none
  | .cons k' v rest, k => if k' == k then some v else rest.get? k

def PyDict.hasKey (d : PyDict) (k : String) : Bool := (d.get? k).isSome

/-- Python dict assignment: overwrite in place, or append a new key at the
end. -/
def PyDict.set : PyDict → String → PyVal → PyDict
  | .nil, k, v => .cons k v .nil
  | .cons k' v' rest, k, v =>
      if k' == k then .cons k' v rest else .cons k' v' (rest.set k v)

def isPyNone : PyVal → Bool
  | .none => true
  | _ => false

/-- Python `float(x)` for the value shapes the extractor meets, as a
partial function (`none` models the raised `ValueError` / `TypeError`).
String parsing covers plain signed decimals; exponent and special forms do
not occur in the modelled data. -/
def digitsVal (l : List Char) : Nat := l.foldl (fun a c => a * 10 + (c.toNat - 48)) 0

def parseDecimal (s : String) : Option ℚ :=
  let unsigned := fun (u : List Char) =>
    match splitOnChar '.' u with
    | [a] =>
        if a.length > 0 && a.all Char.isDigit then some ((digitsVal a : ℚ))
        else Option.none
    | [a, b] =>
        if (a ++ b).length > 0 && (a ++ b).all Char.isDigit then
          some ((digitsVal (a ++ b) : ℚ) / ((10 : ℚ) ^ b.length))
        else Option.none
    | _ => Option.none
  match (stripStr s).data with
  | '-' :: rest => (unsigned rest).map fun q => -q
  | '+' :: rest => unsigned rest
  | l => unsigned l

def pyFloat : PyVal → Option ℚ
  | .bool b => some (if b then 1 else 0)
  | .int n => some (n : ℚ)
  | .float q => some q
  | .str s => parseDecimal s
  | _ => Option.none

/-- Decimal rendering of the rational standing for a Python float, as
`str()` prints it: an exact decimal expansion (floats are dyadic, so one
exists), with at least one fractional digit. -/
def ratFloatStr (q : ℚ) : String :=
  if q.den = 1 then toString q.num ++ ".0"
  else
    match (List.range 1200).find? (fun k => (q * (10 : ℚ) ^ k).den = 1) with
    | some k =>
        let n := (q * (10 : ℚ) ^ k).num
        let s := Nat.repr n.natAbs
        let s := if s.length ≤ k then
            String.mk (List.replicate (k + 1 - s.length) '0') ++ s
          else s
        (if n < 0 then "-" else "") ++ s.take (s.length - k) ++ "." ++ s.drop (s.length - k)
    | Option.none => toString q.num ++ "/" ++ toString q.den

/- Python `repr` (and `str` for containers) of the embedded values. -/
mutual
def pyRepr : PyVal → String
  | .none => "None"
  | .bool b => if b then "True" else "False"
  | .int n => toString n
  | .float q => ratFloatStr q
  | .str s => "\x27" ++ s ++ "\x27"
  | .list l => "[" ++ pyReprList l ++ "]"
  | .dict d => "\x7b" ++ pyReprDict d ++ "\x7d"
def pyReprList : PyList → String
  | .nil => ""
  | .cons v .nil => pyRepr v
  | .cons v rest => pyRepr v ++ ", " ++ pyReprList rest
def pyReprDict : PyDict → String
  | .nil => ""
  | .cons k v .nil => "\x27" ++ k ++ "\x27: " ++ pyRepr v
  | .cons k v rest => "\x27" ++ k ++ "\x27: " ++ pyRepr v ++ ", " ++ pyReprDict rest
end

/-- Python `str(x)`. -/
def pyStr : PyVal → String
  | .none => "None"
  | .bool b => if b then "True" else "False"
  | .int n => toString n
  | .float q => ratFloatStr q
  | .str s => s
  | .list l => "[" ++ pyReprList l ++ "]"
  | .dict d => "\x7b" ++ pyReprDict d ++ "\x7d"

/-! ## `_structure_extracted_data` -/

/-- The declared scalar type of a schema field: `str`, the tuple
`(int, float)`, or `list`. -/
inductive PyType where
  | tstr : PyType
  | tnum : PyType
  | tlist : PyType
  deriving DecidableEq, Repr

/-- The `field_mappings` table of `_structure_extracted_data`, in source
order. -/
def fieldMappings : List (String × PyType) :=
  [("vendor_name", .tstr), ("invoice_number", .tstr), ("invoice_date", .tstr),
   ("total_amount", .tnum), ("currency", .tstr), ("vendor_address", .tstr),
   ("customer_name", .tstr), ("customer_address", .tstr), ("due_date", .tstr),
   ("subtotal", .tnum), ("tax_amount", .tnum), ("discount_amount", .tnum),
   ("line_items", .tlist), ("language_detected", .tstr)]

/-- `isinstance(v, expected_type)`. A Python `bool` is an `int`, so it
satisfies the numeric expectation. -/
def typeMatches : PyType → PyVal → Bool
  | .tstr, .str _ => true
  | .tnum, .int _ => true
  | .tnum, .float _ => true
  | .tnum, .bool _ => true
  | .tlist, .list _ => true
  | _, _ => false

/-- The type-validation block: `line_items` is exempt; a `None` value is
left alone; a mismatched value is converted only when the expected type is
`str` (for numeric fields the source tests `expected_type in (int, float)`
where `expected_type` is the tuple `(int, float)` itself, which is `False`
— tuple membership compares against `int` and `float` — so numeric
coercion never fires). `str()` never raises. -/
def validateField (field : String) (et : PyType) (entry : PyDict) : PyDict :=
  if field == "line_items" then entry
  else
    let actual := (entry.get? "value").getD PyVal.none
    if isPyNone actual then entry
    else if typeMatches et actual then entry
    else
      match et with
      | .tstr => entry.set "value" (PyVal.str (pyStr actual))
      | .tnum => entry
      | .tlist => entry

/-- One iteration of the `for field, expected_type in field_mappings`
loop: `some none` means the field was absent and skipped; the outer `none`
models the exception raised when `float(confidence)` fails (that call is
outside any `try`). -/
def processField (data : PyDict) (field : String) (et : PyType) :
    Option (Option PyDict) :=
  let wrap := fun (v : PyVal) =>
    match pyFloat ((data.get? (field ++ "_confidence")).getD (PyVal.float 0.8)) with
    | some qc =>
        some (some (validateField field et
          (PyDict.cons "value" v (PyDict.cons "confidence" (PyVal.float qc) PyDict.nil))))
    | Option.none => Option.none
  match data.get? field with
  | Option.none => some Option.none
  | some (PyVal.dict d) =>
      if d.hasKey "value" then some (some (validateField field et d)) else wrap (PyVal.dict d)
  | some v => wrap v

def sedGo (data : PyDict) : List (String × PyType) → PyDict → Option PyDict
  | [], acc => some acc
  | (f, et) :: rest, acc =>
      match processField data f et with
      | Option.none => Option.none
      | some Option.none => sedGo data rest acc
      | some (some entry) => sedGo data rest (acc.set f (PyVal.dict entry))

/-- `_structure_extracted_data`: fold the per-field step over the mapping
table; `none` models a raised exception. -/
def structureExtractedData (data : PyDict) : Option PyDict :=
  sedGo data fieldMappings PyDict.nil

/-- `isinstance(value, dict) and "value" in value`: the pass-through test
of `_structure_extracted_data`. -/
def isValueDict : PyVal → Bool
  | .dict d => d.hasKey "value"
  | _ => false

def c3Text : String := "Invoice #INV-2024-001\nACME CORP LTD\nDate: 2024-01-15\nTotal: $1,234.56"

/-- The scenario's empty model result `{}`: no schema entries. -/
def c3Model : AiExtraction := ⟨Option.none, []⟩

def c3Verdicts : List (String × FieldComparison) :=
  [("invoice_no", ⟨"INV-2024-001", "", 0.8, 0, false, false, "INV-2024-001", "regex"⟩),
   ("vendor", ⟨"ACME CORP LTD", "", 0.6, 0, false, false, "ACME CORP LTD", "regex"⟩),
   ("date", ⟨"2024-01-15", "", 0.7, 0, false, false, "2024-01-15", "regex"⟩),
   ("total", ⟨"1234.56", "", 0.75, 0, false, false, "1234.56", "regex"⟩)]

/-- Counterexample input for the normalizer: a string-typed field whose
pass-through `{value, confidence}` mapping carries an integer value. -/
def c7Input : PyDict :=
  PyDict.cons "vendor_name"
    (PyVal.dict (PyDict.cons "value" (PyVal.int 5)
      (PyDict.cons "confidence" (PyVal.float 0.9) PyDict.nil))) PyDict.nil

/-- A well-typed pass-through entry (witness input). -/
def c7GoodEntry : PyDict :=
  PyDict.cons "value" (PyVal.str "ACME")
    (PyDict.cons "confidence" (PyVal.float 0.9) PyDict.nil)

def c7Good : PyDict := PyDict.cons "vendor_name" (PyVal.dict c7GoodEntry) PyDict.nil

/-! ## Helper lemmas about the per-field reconciliation -/

theorem compareField_values_match_imp_hasData (rv : String) (rc : ℚ) (av : String) (ac : ℚ)
    (h : (compareField rv rc av ac).values_match = true) :
    hasData (compareField rv rc av ac) = true := by
  by_cases hrv : rv = "" <;> by_cases hav : av = "" <;>
    by_cases heq : stripStr (lowerStr rv) = stripStr (lowerStr av) <;>
    simp_all [compareField, hasData]

/-- With an absent model side (empty value, zero confidence) and a
nonnegative pattern confidence, the recommendation is always exactly the
pattern value. -/
theorem compareField_absent_ai (rv : String) (rc : ℚ) (h : 0 ≤ rc) :
    (compareField rv rc "" 0).recommended_value = rv := by
  rcases eq_or_lt_of_le h with heq | hlt
  · subst heq
    by_cases hrv : rv = "" <;> simp_all [compareField, lt_irrefl]
  · by_cases hrv : rv = "" <;> simp_all [compareField, not_lt.mpr h, hlt]

theorem getConf_nonneg_of (ext : List (String × FieldValue))
    (h : ∀ p ∈ ext, 0 ≤ p.2.confidence) (f : String) : 0 ≤ getConf ext f := by
  unfold getConf
  cases hf : ext.find? (fun p => p.1 == f) with
  | none => exact le_refl 0
  | some p => exact h p (List.mem_of_find?_eq_some hf)

theorem extractInvoiceNo_conf_nonneg (t : String) : 0 ≤ (extractInvoiceNo t).confidence := by
  unfold extractInvoiceNo
  cases firstMatch invPatterns t <;> norm_num

theorem extractVendor_conf_nonneg (t : String) : 0 ≤ (extractVendor t).confidence := by
  unfold extractVendor
  cases vendorCandidate t <;> norm_num

theorem extractDate_conf_nonneg (t : String) : 0 ≤ (extractDate t).confidence := by
  unfold extractDate
  cases firstMatch datePatterns t <;> norm_num

theorem extractTotal_conf_nonneg (t : String) : 0 ≤ (extractTotal t).confidence := by
  unfold extractTotal
  cases firstMatch totalPatterns t <;> norm_num

theorem basicRegexExtraction_conf_nonneg (t : String) :
    ∀ p ∈ basicRegexExtraction t, 0 ≤ p.2.confidence := by
  intro p hp
  unfold basicRegexExtraction at hp
  split_ifs at hp with ht
  · fin_cases hp <;> norm_num
  · fin_cases hp
    · simpa using extractInvoiceNo_conf_nonneg (lowerStr t)
    · simpa using extractVendor_conf_nonneg t
    · simpa using extractDate_conf_nonneg (lowerStr t)
    · simpa using extractTotal_conf_nonneg (lowerStr t)

/-! ## Claim theorems -/

/-- Claim C5 (confirmed): for every pair of inputs to the per-field
comparison, `values_match` equals `both_present` conjoined with equality of
the two values after lower-casing and trimming (hence `values_match` can
only be true when `both_present` is), and the recommended value is always
one of the empty string, the pattern value or the model value (hence it is
non-empty only if at least one input value is non-empty). -/
theorem field_verdict_invariants (rv : String) (rc : ℚ) (av : String) (ac : ℚ) :
    (compareField rv rc av ac).values_match =
      ((compareField rv rc av ac).both_present && (stripStr (lowerStr rv) == stripStr (lowerStr av))) ∧
    ((compareField rv rc av ac).recommended_value = "" ∨
     (compareField rv rc av ac).recommended_value = rv ∨
     (compareField rv rc av ac).recommended_value = av) := by
  constructor
  · simp only [compareField]
    cases h : (rv != "" && av != "") <;> simp [h]
  · simp only [compareField]
    split_ifs <;> simp

/-- Claim C9 (confirmed): whenever a field verdict has `both_present` and
`values_match`, the recommended value is the pattern (regex) side's raw
value and the recommended method is `"either"`. -/
theorem matching_verdict_recommends_pattern_value (rv : String) (rc : ℚ) (av : String)
    (ac : ℚ)
    (h1 : (compareField rv rc av ac).both_present = true)
    (h2 : (compareField rv rc av ac).values_match = true) :
    (compareField rv rc av ac).recommended_value = rv ∧
    (compareField rv rc av ac).recommended_method = "either" := by
  by_cases hrv : rv = "" <;> by_cases hav : av = "" <;>
    by_cases heq : stripStr (lowerStr rv) = stripStr (lowerStr av) <;>
    simp_all [compareField]

theorem matching_verdict_recommends_pattern_value_witness :
    (compareField "ACME LTD" 0.6 " acme ltd " 0.9).both_present = true ∧
    (compareField "ACME LTD" 0.6 " acme ltd " 0.9).values_match = true ∧
    (compareField "ACME LTD" 0.6 " acme ltd " 0.9).recommended_value = "ACME LTD" ∧
    (compareField "ACME LTD" 0.6 " acme ltd " 0.9).recommended_method = "either" := by
  refine ⟨by decide, by decide, ?_⟩
  have h := matching_verdict_recommends_pattern_value "ACME LTD" 0.6 " acme ltd " 0.9
    (by decide) (by decide)
  exact ⟨h.1, h.2⟩

/-- Claim C4 (confirmed): on an exact confidence tie where the field does
not fall into the both-present-and-matching case, the model value is
preferred when present (method `"ai"`), else the pattern value (method
`"regex"`), else the field is left unrecommended. -/
theorem equal_confidence_tie_prefers_model (rv : String) (rc : ℚ) (av : String) (ac : ℚ)
    (hc : ac = rc)
    (hnm : ¬((compareField rv rc av ac).both_present = true ∧
             (compareField rv rc av ac).values_match = true)) :
    (av ≠ "" → (compareField rv rc av ac).recommended_value = av ∧
               (compareField rv rc av ac).recommended_method = "ai") ∧
    (av = "" → rv ≠ "" → (compareField rv rc av ac).recommended_value = rv ∧
               (compareField rv rc av ac).recommended_method = "regex") ∧
    (av = "" → rv = "" → (compareField rv rc av ac).recommended_value = "" ∧
               (compareField rv rc av ac).recommended_method = "") := by
  subst hc
  by_cases hrv : rv = "" <;> by_cases hav : av = "" <;>
    by_cases heq : stripStr (lowerStr rv) = stripStr (lowerStr av) <;>
    simp_all [compareField, lt_irrefl]

theorem equal_confidence_tie_prefers_model_witness :
    ((0.8 : ℚ) = 0.8) ∧
    ¬((compareField "ACME" 0.8 "ACME CORP" 0.8).both_present = true ∧
      (compareField "ACME" 0.8 "ACME CORP" 0.8).values_match = true) ∧
    (compareField "ACME" 0.8 "ACME CORP" 0.8).recommended_value = "ACME CORP" ∧
    (compareField "ACME" 0.8 "ACME CORP" 0.8).recommended_method = "ai" := by
  refine ⟨rfl, by decide, ?_⟩
  exact (equal_confidence_tie_prefers_model "ACME" 0.8 "ACME CORP" 0.8 rfl
    (by decide)).1 (by decide)

/-- Claim C10 (confirmed): when the model confidence strictly exceeds the
pattern confidence and the field is not in the both-present-and-matching
case, the model value is recommended with method `"ai"` even when it is
empty; an empty recommended value is then not counted by the
`fields_with_data` predicate. -/
theorem higher_model_confidence_wins_even_empty (rv : String) (rc : ℚ) (av : String)
    (ac : ℚ) (hc : rc < ac)
    (hnm : ¬((compareField rv rc av ac).both_present = true ∧
             (compareField rv rc av ac).values_match = true)) :
    (compareField rv rc av ac).recommended_value = av ∧
    (compareField rv rc av ac).recommended_method = "ai" ∧
    (av = "" → hasData (compareField rv rc av ac) = false) := by
  have hmain : (compareField rv rc av ac).recommended_value = av ∧
      (compareField rv rc av ac).recommended_method = "ai" := by
    by_cases hrv : rv = "" <;> by_cases hav : av = "" <;>
      by_cases heq : stripStr (lowerStr rv) = stripStr (lowerStr av) <;>
      simp_all [compareField, not_lt.mpr hc.le, hc]
  refine ⟨hmain.1, hmain.2, fun hav => ?_⟩
  subst hav
  simp [hasData, hmain.1]

theorem higher_model_confidence_wins_even_empty_witness :
    ((0.3 : ℚ) < 0.5) ∧
    ¬((compareField "500.00" 0.3 "" 0.5).both_present = true ∧
      (compareField "500.00" 0.3 "" 0.5).values_match = true) ∧
    ((compareField "500.00" 0.3 "" 0.5).recommended_value = "" ∧
     (compareField "500.00" 0.3 "" 0.5).recommended_method = "ai" ∧
     hasData (compareField "500.00" 0.3 "" 0.5) = false) := by
  refine ⟨by norm_num, by decide, ?_⟩
  have h := higher_model_confidence_wins_even_empty "500.00" 0.3 "" 0.5 (by norm_num)
    (by decide)
  exact ⟨h.1, h.2.1, h.2.2 rfl⟩

/-- Claim C6 (confirmed): the document metrics are well-formed — both
rates lie in `[0, 1]`, `data_completeness` is `fields_with_data` over the
(always four) total fields, `agreement_rate` is `matching_fields` over
`fields_with_data` guarded by zero (never a division by zero), and every
matching field is also counted as a field with data. -/
theorem document_metrics_bounds (regexExt : List (String × FieldValue)) (ai : AiExtraction) :
    0 ≤ (compareExtractions regexExt ai).overall_metrics.data_completeness ∧
    (compareExtractions regexExt ai).overall_metrics.data_completeness ≤ 1 ∧
    0 ≤ (compareExtractions regexExt ai).overall_metrics.agreement_rate ∧
    (compareExtractions regexExt ai).overall_metrics.agreement_rate ≤ 1 ∧
    (compareExtractions regexExt ai).overall_metrics.total_fields = 4 ∧
    (compareExtractions regexExt ai).overall_metrics.matching_fields ≤
      (compareExtractions regexExt ai).overall_metrics.fields_with_data ∧
    (compareExtractions regexExt ai).overall_metrics.fields_with_data ≤ 4 ∧
    (compareExtractions regexExt ai).overall_metrics.data_completeness =
      ((compareExtractions regexExt ai).overall_metrics.fields_with_data : ℚ) /
        ((compareExtractions regexExt ai).overall_metrics.total_fields : ℚ) ∧
    (compareExtractions regexExt ai).overall_metrics.agreement_rate =
      (if 0 < (compareExtractions regexExt ai).overall_metrics.fields_with_data then
        ((compareExtractions regexExt ai).overall_metrics.matching_fields : ℚ) /
          ((compareExtractions regexExt ai).overall_metrics.fields_with_data : ℚ)
      else 0) := by
  unfold compareExtractions
  dsimp only
  set fcs := fieldsToCompare.map fun f =>
      (f, compareField (getValue regexExt f) (getConf regexExt f)
          (getValue ai.schema f) (getConf ai.schema f)) with hfcs
  have hle : (fcs.countP fun p => p.2.values_match) ≤ fcs.countP fun p => hasData p.2 := by
    apply List.countP_mono_left
    intro p hp h
    rcases List.mem_map.mp hp with ⟨f, _, rfl⟩
    exact compareField_values_match_imp_hasData _ _ _ _ h
  have hlen : (fcs.countP fun p => hasData p.2) ≤ 4 := by
    calc (fcs.countP fun p => hasData p.2) ≤ fcs.length := List.countP_le_length _
    _ = 4 := by rw [hfcs]; simp [fieldsToCompare]
  set n := fcs.countP fun p => hasData p.2 with hn
  set m := fcs.countP fun p => p.2.values_match with hm
  have h4 : fieldsToCompare.length = 4 := by simp [fieldsToCompare]
  rw [h4]
  norm_num
  have hdc0 : (0:ℚ) ≤ (n : ℚ) / 4 := by positivity
  have hdc1 : (n : ℚ) / 4 ≤ 1 := by
    rw [div_le_one (by norm_num : (0:ℚ) < 4)]
    exact_mod_cast hlen
  have har : 0 ≤ (if 0 < n then (m : ℚ) / (n : ℚ) else 0) ∧
      (if 0 < n then (m : ℚ) / (n : ℚ) else 0) ≤ 1 := by
    by_cases h0 : 0 < n
    · rw [if_pos h0]
      constructor
      · positivity
      · rw [div_le_one (by exact_mod_cast h0)]
        exact_mod_cast hle
    · rw [if_neg h0]
      norm_num
  exact ⟨hdc0, hdc1, har.1, har.2, hle, hlen⟩

/-- Claim C8 (confirmed): reconciliation is a pure function of the two
field maps — running `_compare_extractions` on equal inputs yields
identical field verdicts and metrics; the embedding has no other inputs
because the source reads no state besides its two arguments. -/
theorem reconciliation_deterministic (r1 : List (String × FieldValue)) (a1 : AiExtraction)
    (r2 : List (String × FieldValue)) (a2 : AiExtraction) (hr : r1 = r2) (ha : a1 = a2) :
    compareExtractions r1 a1 = compareExtractions r2 a2 := by
  rw [hr, ha]

theorem reconciliation_deterministic_witness :
    ([("total", (⟨"500", 0.75⟩ : FieldValue))] = [("total", (⟨"500", 0.75⟩ : FieldValue))]) ∧
    compareExtractions [("total", ⟨"500", 0.75⟩)] (AiExtraction.mk Option.none []) =
      compareExtractions [("total", ⟨"500", 0.75⟩)] (AiExtraction.mk Option.none []) :=
  ⟨rfl, reconciliation_deterministic _ _ _ _ rfl rfl⟩

/-- Claim C2 (corrected): if the model side contributes no schema data,
every field's recommended value is exactly the pattern extractor's value
(hence absent when the pattern found nothing), `fields_with_data` counts
exactly the fields with a non-empty pattern value and `data_completeness`
is that count over four — but the result's `errors` list stays empty: the
inference failure is recorded inside `ai_extraction`, not in `errors`. -/
theorem model_failure_degrades_to_pattern (ocrText : String) (ai : AiExtraction)
    (hs : ai.schema = []) :
    (∀ f c, (f, c) ∈ (processInvoiceWithAi ocrText ai).comparison.field_comparisons →
      c.recommended_value = getValue (basicRegexExtraction ocrText) f) ∧
    (processInvoiceWithAi ocrText ai).comparison.overall_metrics.fields_with_data =
      fieldsToCompare.countP (fun f => getValue (basicRegexExtraction ocrText) f != "") ∧
    (processInvoiceWithAi ocrText ai).comparison.overall_metrics.data_completeness =
      ((processInvoiceWithAi ocrText ai).comparison.overall_metrics.fields_with_data : ℚ) /
        4 ∧
    (processInvoiceWithAi ocrText ai).errors = [] := by
  have hnn : ∀ f, 0 ≤ getConf (basicRegexExtraction ocrText) f := fun f =>
    getConf_nonneg_of _ (basicRegexExtraction_conf_nonneg ocrText) f
  have hrec : ∀ f, (compareField (getValue (basicRegexExtraction ocrText) f)
      (getConf (basicRegexExtraction ocrText) f) "" 0).recommended_value =
      getValue (basicRegexExtraction ocrText) f := fun f =>
    compareField_absent_ai _ _ (hnn f)
  refine ⟨?_, ?_, ?_, rfl⟩
  · intro f c hmem
    unfold processInvoiceWithAi compareExtractions at hmem
    dsimp only at hmem
    rcases List.mem_map.mp hmem with ⟨f', _, heq⟩
    rw [hs] at heq
    cases heq
    exact hrec _
  · unfold processInvoiceWithAi compareExtractions
    dsimp only
    rw [hs, List.countP_map]
    refine List.countP_congr fun f _ => ?_
    show hasData (compareField (getValue (basicRegexExtraction ocrText) f)
      (getConf (basicRegexExtraction ocrText) f) (getValue [] f) (getConf [] f)) = true ↔
      (getValue (basicRegexExtraction ocrText) f != "") = true
    show hasData (compareField (getValue (basicRegexExtraction ocrText) f)
      (getConf (basicRegexExtraction ocrText) f) "" 0) = true ↔
      (getValue (basicRegexExtraction ocrText) f != "") = true
    rw [hasData, hrec f]
  · unfold processInvoiceWithAi compareExtractions
    dsimp only
    have h4 : fieldsToCompare.length = 4 := by simp [fieldsToCompare]
    rw [h4]
    norm_num

theorem model_failure_degrades_to_pattern_witness :
    (aiFailureResult "AI modules not available").schema = [] ∧
    (processInvoiceWithAi "Total: $5" (aiFailureResult "AI modules not available")).errors =
      [] :=
  ⟨rfl, (model_failure_degrades_to_pattern "Total: $5"
    (aiFailureResult "AI modules not available") rfl).2.2.2⟩

/-- Claim C2, counterexample to the claim as stated: a processing run whose
model side failed entirely (the `_run_ai_extraction` failure value, empty
schema) still has an empty `errors` list, contradicting the claimed
"errors list is non-empty". -/
theorem model_failure_leaves_errors_empty :
    (processInvoiceWithAi "" (aiFailureResult "AI modules not available")).ai_extraction.schema
        = [] ∧
    (processInvoiceWithAi "" (aiFailureResult "AI modules not available")).errors = [] :=
  ⟨rfl, rfl⟩

theorem compareField_pattern_only (rv : String) (rc : ℚ) (hrc : 0 < rc) :
    compareField rv rc "" 0 = ⟨rv, "", rc, 0, false, false, rv, "regex"⟩ := by
  simp [compareField, not_lt.mpr hrc.le, hrc]

theorem c3_fcs : (fieldsToCompare.map fun f =>
    (f, compareField (getValue (basicRegexExtraction c3Text) f)
        (getConf (basicRegexExtraction c3Text) f)
        (getValue c3Model.schema f) (getConf c3Model.schema f))) = c3Verdicts := by
  have h0 : (fieldsToCompare.map fun f =>
      (f, compareField (getValue (basicRegexExtraction c3Text) f)
          (getConf (basicRegexExtraction c3Text) f)
          (getValue c3Model.schema f) (getConf c3Model.schema f))) =
      [("invoice_no", compareField "INV-2024-001" 0.8 "" 0),
       ("vendor", compareField "ACME CORP LTD" 0.6 "" 0),
       ("date", compareField "2024-01-15" 0.7 "" 0),
       ("total", compareField "1234.56" 0.75 "" 0)] := rfl
  rw [h0, compareField_pattern_only "INV-2024-001" 0.8 (by norm_num),
      compareField_pattern_only "ACME CORP LTD" 0.6 (by norm_num),
      compareField_pattern_only "2024-01-15" 0.7 (by norm_num),
      compareField_pattern_only "1234.56" 0.75 (by norm_num)]
  rfl

/-- Claim C3 (confirmed): on the scenario text, the pattern extractor
yields exactly the four claimed field values with confidences 0.8, 0.6,
0.7, 0.75, and reconciling against the empty model result recommends all
four pattern values with method `"regex"`, completeness 1 and agreement
rate 0. -/
theorem end_to_end_scenario_pattern_only :
    basicRegexExtraction c3Text =
      [("invoice_no", ⟨"INV-2024-001", 0.8⟩), ("vendor", ⟨"ACME CORP LTD", 0.6⟩),
       ("date", ⟨"2024-01-15", 0.7⟩), ("total", ⟨"1234.56", 0.75⟩)] ∧
    (compareExtractions (basicRegexExtraction c3Text) c3Model).field_comparisons =
      c3Verdicts ∧
    (compareExtractions (basicRegexExtraction c3Text) c3Model).overall_metrics.data_completeness
      = 1 ∧
    (compareExtractions (basicRegexExtraction c3Text) c3Model).overall_metrics.agreement_rate
      = 0 := by
  have hc4 : c3Verdicts.countP (fun p => hasData p.2) = 4 := by decide
  have hm0 : c3Verdicts.countP (fun p => p.2.values_match) = 0 := by decide
  refine ⟨rfl, ?_, ?_, ?_⟩
  · show (fieldsToCompare.map fun f =>
        (f, compareField (getValue (basicRegexExtraction c3Text) f)
            (getConf (basicRegexExtraction c3Text) f)
            (getValue c3Model.schema f) (getConf c3Model.schema f))) = c3Verdicts
    exact c3_fcs
  · unfold compareExtractions
    dsimp only
    rw [c3_fcs, hc4]
    norm_num [fieldsToCompare]
  · unfold compareExtractions
    dsimp only
    rw [c3_fcs, hc4, hm0]
    norm_num

/-! ## Claim C1: the anomaly loop -/

theorem getKey_conflict (c : FieldComparison) : c.getKey "conflict" = none := rfl

/-- The anomaly-storing loop can never fire: `comp.get("conflict")` reads a
key the `field_comparison` dict does not contain, so it is `None` for every
verdict. -/
theorem storeAnomalies_nil (fcs : List (String × FieldComparison)) :
    storeAnomalies fcs = [] := by
  induction fcs with
  | nil => rfl
  | cons h t ih =>
      unfold storeAnomalies at ih ⊢
      rw [List.filterMap_cons, getKey_conflict]
      exact ih

/-- Claim C1 (code bug): a document whose `total` verdict has
`both_present = true` and `values_match = false` — a method conflict the
claim says must yield exactly one anomaly with score 0.8 — produces no
anomaly at all: the loop tests `comp.get("conflict")`, a key
`_compare_extractions` never writes. -/
theorem anomaly_loop_emits_nothing_on_conflict :
    ("total", compareField "500.00" 0.75 "999.99" 0.9) ∈
      (compareExtractions [("total", ⟨"500.00", 0.75⟩)]
        ⟨Option.none, [("total", ⟨"999.99", 0.9⟩)]⟩).field_comparisons ∧
    (compareField "500.00" 0.75 "999.99" 0.9).both_present = true ∧
    (compareField "500.00" 0.75 "999.99" 0.9).values_match = false ∧
    storeAnomalies (compareExtractions [("total", ⟨"500.00", 0.75⟩)]
        ⟨Option.none, [("total", ⟨"999.99", 0.9⟩)]⟩).field_comparisons = [] :=
  ⟨List.Mem.tail _ (List.Mem.tail _ (List.Mem.tail _ (List.Mem.head _))),
   by decide, by decide, storeAnomalies_nil _⟩

/-! ## Claim C7: the schema normalizer -/

theorem PyDict.get?_set_self : ∀ (d : PyDict) (k : String) (v : PyVal),
    (d.set k v).get? k = some v
  | .nil, k, v => by simp [PyDict.set, PyDict.get?]
  | .cons k2 v2 rest, k, v => by
      by_cases h : k2 = k <;>
        simp [PyDict.set, PyDict.get?, h, PyDict.get?_set_self rest k v]

theorem PyDict.get?_set_ne : ∀ (d : PyDict) (k2 k : String) (v : PyVal), k2 ≠ k →
    (d.set k2 v).get? k = d.get? k
  | .nil, k2, k, v, h => by simp [PyDict.set, PyDict.get?, h]
  | .cons k3 v3 rest, k2, k, v, h => by
      by_cases h2 : k3 = k2 <;> by_cases h3 : k3 = k <;>
        simp_all [PyDict.set, PyDict.get?, PyDict.get?_set_ne rest k2 k v h]

/-- A field present in the raw data is never skipped by the loop body. -/
theorem processField_ne_skip (data : PyDict) (f : String) (et : PyType) (v : PyVal)
    (hget : data.get? f = some v) : processField data f et ≠ some Option.none := by
  unfold processField
  rw [hget]
  cases v
  case dict d =>
    dsimp only
    cases hf : pyFloat ((data.get? (f ++ "_confidence")).getD (PyVal.float 0.8)) <;>
      split_ifs <;> simp [hf]
  all_goals
    dsimp only
    cases hf : pyFloat ((data.get? (f ++ "_confidence")).getD (PyVal.float 0.8)) <;> simp [hf]

/-- Fields whose key never occurs in the remaining mapping entries are left
exactly as the accumulator holds them. -/
theorem sedGo_untouched (data : PyDict) (l : List (String × PyType)) (acc out : PyDict)
    (k : String) (hrun : sedGo data l acc = some out) (hk : ∀ p ∈ l, p.1 ≠ k) :
    out.get? k = acc.get? k := by
  induction l generalizing acc with
  | nil =>
      simp only [sedGo] at hrun
      cases hrun
      rfl
  | cons p rest ih =>
      obtain ⟨fp, etp⟩ := p
      simp only [sedGo] at hrun
      cases hpf : processField data fp etp with
      | none => rw [hpf] at hrun; cases hrun
      | some oe =>
          cases oe with
          | none =>
              rw [hpf] at hrun
              exact ih _ hrun fun p hp => hk p (List.mem_cons_of_mem _ hp)
          | some e =>
              rw [hpf] at hrun
              have h2 := ih _ hrun fun p hp => hk p (List.mem_cons_of_mem _ hp)
              rw [h2, PyDict.get?_set_ne _ _ _ _ (hk (fp, etp) (List.mem_cons_self _ _))]

/-- The per-field output of `_structure_extracted_data`: for any schema
field present in the raw data, the loop body succeeds and the final dict
holds exactly its result. -/
theorem sedGo_mem (data : PyDict) (l : List (String × PyType)) (acc out : PyDict)
    (f : String) (et : PyType) (v : PyVal)
    (hrun : sedGo data l acc = some out) (hmem : (f, et) ∈ l)
    (hnd : (l.map Prod.fst).Nodup) (hget : data.get? f = some v) :
    ∃ e, processField data f et = some (some e) ∧ out.get? f = some (PyVal.dict e) := by
  induction l generalizing acc with
  | nil => cases hmem
  | cons p rest ih =>
      obtain ⟨fp, etp⟩ := p
      rw [List.map_cons, List.nodup_cons] at hnd
      simp only [sedGo] at hrun
      rcases List.mem_cons.mp hmem with heq | hmem2
      · cases heq
        cases hpf : processField data f et with
        | none => rw [hpf] at hrun; cases hrun
        | some oe =>
            cases oe with
            | none => exact absurd hpf (processField_ne_skip data f et v hget)
            | some e =>
                rw [hpf] at hrun
                refine ⟨e, rfl, ?_⟩
                have hnotin : ∀ p ∈ rest, p.1 ≠ f := by
                  intro p hp hcontra
                  exact hnd.1 (List.mem_map.mpr ⟨p, hp, hcontra⟩)
                rw [sedGo_untouched data rest _ out f hrun hnotin,
                    PyDict.get?_set_self]
      · cases hpf : processField data fp etp with
        | none => rw [hpf] at hrun; cases hrun
        | some oe =>
            cases oe with
            | none => rw [hpf] at hrun; exact ih _ hrun hmem2 hnd.2
            | some e => rw [hpf] at hrun; exact ih _ hrun hmem2 hnd.2

/-- The validation block leaves an entry completely unchanged when its
inner value already has the declared type. -/
theorem validateField_id (f : String) (et : PyType) (d : PyDict)
    (h : typeMatches et ((d.get? "value").getD PyVal.none) = true) :
    validateField f et d = d := by
  unfold validateField
  by_cases h1 : (f == "line_items") = true
  · rw [if_pos h1]
  · rw [if_neg h1]
    dsimp only
    by_cases h2 : isPyNone ((d.get? "value").getD PyVal.none) = true
    · rw [if_pos h2]
    · rw [if_neg h2, if_pos h]

theorem processField_det {data : PyDict} {f : String} {et : PyType} {e x : PyDict}
    (h1 : processField data f et = some (some e))
    (h2 : processField data f et = some (some x)) : e = x := by
  rw [h1] at h2
  exact Option.some.inj (Option.some.inj h2)

theorem processField_passthrough (data : PyDict) (f : String) (et : PyType) (d : PyDict)
    (hget : data.get? f = some (PyVal.dict d)) (hk : d.hasKey "value" = true) :
    processField data f et = some (some (validateField f et d)) := by
  unfold processField
  rw [hget]
  dsimp only
  rw [if_pos hk]

theorem processField_wrap (data : PyDict) (f : String) (et : PyType) (v : PyVal)
    (hget : data.get? f = some v) (hnv : isValueDict v = false) (qc : ℚ)
    (hq : pyFloat ((data.get? (f ++ "_confidence")).getD (PyVal.float 0.8)) = some qc) :
    processField data f et = some (some (validateField f et
      (PyDict.cons "value" v (PyDict.cons "confidence" (PyVal.float qc) PyDict.nil)))) := by
  unfold processField
  rw [hget]
  cases v
  case dict d =>
    simp only [isValueDict] at hnv
    dsimp only
    rw [if_neg (by simp [hnv]), hq]
  all_goals dsimp only; rw [hq]

/-- Claim C7 (corrected): for every schema field present in the raw model
map, a value already shaped `{value, ...}` is passed through subject only
to the validation step (and is truly unchanged when its inner value already
has the declared type), while a bare value is wrapped as
`{value, confidence}` with the confidence taken from the sibling
`<field>_confidence` key, defaulting to 0.8 when that sibling is absent —
the same validation step applying afterwards. -/
theorem normalizer_passthrough_and_wrap (data : PyDict) (out : PyDict) (f : String)
    (et : PyType) (v : PyVal)
    (hsd : structureExtractedData data = some out)
    (hmem : (f, et) ∈ fieldMappings)
    (hget : data.get? f = some v) :
    (∀ d, v = PyVal.dict d → d.hasKey "value" = true →
      out.get? f = some (PyVal.dict (validateField f et d))) ∧
    (∀ d, v = PyVal.dict d →
      typeMatches et ((d.get? "value").getD PyVal.none) = true →
      validateField f et d = d) ∧
    (isValueDict v = false → data.get? (f ++ "_confidence") = Option.none →
      out.get? f = some (PyVal.dict (validateField f et
        (PyDict.cons "value" v (PyDict.cons "confidence" (PyVal.float 0.8) PyDict.nil))))) ∧
    (∀ qc, isValueDict v = false →
      data.get? (f ++ "_confidence") = some (PyVal.float qc) →
      out.get? f = some (PyVal.dict (validateField f et
        (PyDict.cons "value" v (PyDict.cons "confidence" (PyVal.float qc) PyDict.nil))))) := by
  obtain ⟨e, hpf, hout⟩ :=
    sedGo_mem data fieldMappings PyDict.nil out f et v hsd hmem (by decide) hget
  refine ⟨?_, fun d hv ht => validateField_id f et d ht, ?_, ?_⟩
  · intro d hv hk
    subst hv
    have hx := processField_passthrough data f et d hget hk
    rw [processField_det hpf hx] at hout
    exact hout
  · intro hnv hsib
    have hx := processField_wrap data f et v hget hnv 0.8 (by rw [hsib]; rfl)
    rw [processField_det hpf hx] at hout
    exact hout
  · intro qc hnv hsib
    have hx := processField_wrap data f et v hget hnv qc (by rw [hsib]; rfl)
    rw [processField_det hpf hx] at hout
    exact hout

theorem normalizer_passthrough_and_wrap_witness :
    (("vendor_name", PyType.tstr) ∈ fieldMappings) ∧
    structureExtractedData c7Good = some c7Good ∧
    c7Good.get? "vendor_name" =
      some (PyVal.dict (validateField "vendor_name" PyType.tstr c7GoodEntry)) ∧
    validateField "vendor_name" PyType.tstr c7GoodEntry = c7GoodEntry := by
  have h := normalizer_passthrough_and_wrap c7Good c7Good "vendor_name" PyType.tstr
    (PyVal.dict c7GoodEntry) rfl (by decide) rfl
  exact ⟨by decide, rfl, h.1 c7GoodEntry rfl rfl, h.2.1 c7GoodEntry rfl rfl⟩

/-- Claim C7, counterexample to "passes it through unchanged": a
pass-through `{value, confidence}` mapping on the string-typed field
`vendor_name` whose inner value is the integer 5 comes out with its value
replaced by the string "5" — not unchanged. -/
theorem normalizer_passthrough_not_unchanged :
    c7Input.get? "vendor_name" =
      some (PyVal.dict (PyDict.cons "value" (PyVal.int 5)
        (PyDict.cons "confidence" (PyVal.float 0.9) PyDict.nil))) ∧
    structureExtractedData c7Input =
      some (PyDict.cons "vendor_name"
        (PyVal.dict (PyDict.cons "value" (PyVal.str "5")
          (PyDict.cons "confidence" (PyVal.float 0.9) PyDict.nil))) PyDict.nil) ∧
    PyDict.cons "value" (PyVal.str "5") (PyDict.cons "confidence" (PyVal.float 0.9) PyDict.nil)
      ≠ PyDict.cons "value" (PyVal.int 5)
          (PyDict.cons "confidence" (PyVal.float 0.9) PyDict.nil) := by
  refine ⟨rfl, rfl, ?_⟩
  intro h
  injection h with h1 h2 h3
  exact PyVal.noConfusion h2

end InvoiceExtraction
